import Mathlib

/-
Shallow embedding of src/script.js (paper-fusion): a browser utility that
validates, deduplicates and merges PDF files.  External capabilities
(pdf-lib parsing, SHA-256 hashing, the file reader) are modelled as oracle
fields on the candidate file: the outcome each call would have on that
file.  DOM rendering, CSS and timers are presentational and not modelled;
toast notifications are modelled as values so that the reporting logic is
visible.  All numbers are Nat (sizes and counts in the source are
non-negative integers well below 2^53, so JS number arithmetic on them is
exact).
-/

namespace PaperFusion

/-- CONFIG.MAX_FILE_SIZE: 100 MB per-file cap (script.js line 6). -/
def MAX_FILE_SIZE : Nat := 100 * 1024 * 1024

/-- CONFIG.MAX_TOTAL_SIZE: 500 MB cap on the sum of accepted sizes (script.js line 7). -/
def MAX_TOTAL_SIZE : Nat := 500 * 1024 * 1024

/-- CONFIG.MAX_FILE_COUNT: at most 50 records (script.js line 8). -/
def MAX_FILE_COUNT : Nat := 50

/-- CONFIG.LARGE_OUTPUT_THRESHOLD: confirm before producing more than 200 pages (script.js line 9). -/
def LARGE_OUTPUT_THRESHOLD : Nat := 200

/-- A toast notification as produced by showToast (script.js line 503): the
title and message actually displayed.  Timeout and action callbacks are
presentational and omitted. -/
structure Toast where
  title : String
  message : String
deriving DecidableEq, Repr

/-- A candidate input file, together with the outcomes of the external calls
the intake path makes on it: readOk is whether file.arrayBuffer() succeeds,
bytes its content, hash the result of hashFile (none when hashing failed,
script.js line 115), probeOk whether PDFLib.PDFDocument.load succeeds at
intake (script.js line 246), and pages the page list pdf-lib extracts from
the bytes (so pages.length is getPageCount()).  Pages are abstract tokens
(Nat) identifying the concrete page content. -/
structure JsFile where
  name : String
  type : String
  size : Nat
  readOk : Bool
  bytes : List Nat
  hash : Option String
  probeOk : Bool
  pages : List Nat
deriving DecidableEq, Repr

/-- One entry of filesArr (script.js lines 253-261).  The DOM File object
reference is not modelled; rawBytes is none once the buffer is released. -/
structure FileRecord where
  name : String
  size : Nat
  pageCount : Nat
  id : String
  rawBytes : Option (List Nat)
  hash : Option String
  pages : List Nat
deriving DecidableEq, Repr

/-- The mutable application state: the ordered list filesArr plus a counter
indexing the stream of uid() outputs consumed so far.  uid (script.js
line 26) draws from Math.random with no collision check; the draw sequence
is modelled as a function from the counter, supplied as a parameter. -/
structure AppState where
  filesArr : List FileRecord
  uidCtr : Nat
deriving DecidableEq, Repr

/-- Aggregate counters of one handleFiles batch (script.js lines 188-190). -/
structure IntakeCounts where
  added : Nat
  skipped : Nat
  errors : Nat
deriving DecidableEq, Repr

/-- Initial counters of a batch. -/
def IntakeCounts.zero : IntakeCounts := ⟨0, 0, 0⟩

/-- JS String.prototype.toLowerCase, char by char. -/
def jsToLower (s : String) : String := String.mk (s.data.map Char.toLower)

/-- JS String.prototype.endsWith for a plain suffix string. -/
def jsEndsWith (s suff : String) : Bool := suff.data.isSuffixOf s.data

/-- The PDF filter predicate applied to a dropped or picked file
(script.js lines 166-171).  Note the inner conjunct repeats the exact-type
test, which nullifies the empty-type leniency of hasPdfType. -/
def isPdfCandidate (f : JsFile) : Bool :=
  let name := jsToLower f.name
  let hasPdfExtension := jsEndsWith name ".pdf"
  let hasPdfType := f.type == "application/pdf" || f.type == ""
  hasPdfExtension || (hasPdfType && f.type == "application/pdf")

/-- validateFile (script.js lines 120-129).  The first message interpolates
formatBytes(CONFIG.MAX_FILE_SIZE), which evaluates to the literal shown. -/
def validateFile (f : JsFile) : List String :=
  (if f.size > MAX_FILE_SIZE then ["File exceeds 100.0 MB limit"] else []) ++
  (if f.size = 0 then ["File is empty"] else [])

/-- getTotalSize (script.js lines 131-133): reduce over filesArr. -/
def getTotalSize (l : List FileRecord) : Nat :=
  l.foldl (fun sum f => sum + f.size) 0

/-- The byte values of the string used by the magic-number check. -/
def pdfMagic : List Nat := [37, 80, 68, 70, 45]

/-- The magic-number check (script.js lines 232-234): the string built from
the first five bytes starts with the PDF signature, which holds exactly when
the first five bytes are present and equal to it. -/
def hasPdfHeader (bytes : List Nat) : Bool := bytes.take 5 == pdfMagic

/-- The duplicate predicate passed to filesArr.find (script.js lines
222-225).  In JS, hash is falsy when hashFile returned null, so a record
can only match by hash when the candidate hash is present; a stored null
hash never equals a present candidate hash. -/
def isDupOf (hash : Option String) (name : String) (size : Nat) (x : FileRecord) : Bool :=
  (hash.isSome && x.hash == hash) || (x.name == name && x.size == size)

/-- Toast shown when a candidate fails validateFile (script.js lines 198-203);
the message interpolates the first validation error. -/
def invalidFileToast (fname msg : String) : Toast :=
  ⟨"Invalid file", fname ++ ": " ++ msg⟩

/-- Toast shown at the hard total-size cutoff (script.js lines 210-214); the
message interpolates formatBytes(CONFIG.MAX_TOTAL_SIZE). -/
def sizeLimitToast : Toast :=
  ⟨"Size limit exceeded", "Total size would exceed 500.0 MB"⟩

/-- Toast shown from the per-file catch (script.js lines 279-284).  The
category chosen by message-substring sniffing on the thrown error text
(lines 268-277) is abstracted to the generic message, since thrown error
texts of the external library are outside the model. -/
def cannotProcessToast (fname : String) : Toast :=
  ⟨"Cannot process file", fname ++ ": Failed to process file"⟩

/-- Toast shown when the magic-number check fails (script.js lines 236-241). -/
def notPdfToast (fname : String) : Toast :=
  ⟨"Invalid file", fname ++ " is not a valid PDF file"⟩

/-- Toast shown when the PDF filter leaves nothing (script.js line 174). -/
def unsupportedToast : Toast :=
  ⟨"Unsupported files", "Please add PDF files only."⟩

/-- Toast shown when the 50-file cap would be passed (script.js lines 180-184). -/
def tooManyToast (n : Nat) : Toast :=
  ⟨"Too many files", s!"Maximum 50 files allowed. You tried to add {n} more."⟩

/-- Plural suffix used by the batch report messages. -/
def pluralS (n : Nat) : String := if n > 1 then "s" else ""

/-- Batch report toast when addedCount is positive (script.js lines 293-296). -/
def filesAddedToast (added skipped : Nat) : Toast :=
  let base := s!"{added} file" ++ pluralS added ++ " added."
  let msg := if skipped > 0
    then base ++ s!" {skipped} duplicate" ++ pluralS skipped ++ " skipped."
    else base
  ⟨"Files added", msg⟩

/-- Batch report toast when nothing was added but duplicates were skipped
(script.js lines 297-298). -/
def noNewFilesToast (skipped : Nat) : Toast :=
  ⟨"No new files",
    s!"All {skipped} file" ++ (if skipped > 1 then "s were" else " was") ++ " already added."⟩

/-- The record pushed onto filesArr on successful intake (script.js lines
253-261): pageCount is getPageCount() of the probed document, rawBytes the
read buffer, id the uid() draw. -/
def mkRecord (id : String) (f : JsFile) : FileRecord :=
  { name := f.name, size := f.size, pageCount := f.pages.length, id := id,
    rawBytes := some f.bytes, hash := f.hash, pages := f.pages }

/-- The per-file loop of handleFiles (script.js lines 193-287), in source
order for each candidate: validateFile (error, continue); total-size check
(toast and break out of the whole batch); arrayBuffer read (throw goes to
the catch: error, continue); duplicate find on hash or name+size (skip,
continue); magic-number check (error, continue); pdf-lib probe (throw goes
to the catch: error, continue); on success push the record and consume one
uid draw.  gen is the stream of uid() outputs. -/
def intakeLoop (gen : Nat → String) :
    AppState → IntakeCounts → List Toast → List JsFile →
    AppState × IntakeCounts × List Toast
  | st, c, ts, [] => (st, c, ts)
  | st, c, ts, f :: rest =>
    if validateFile f ≠ [] then
      intakeLoop gen st ⟨c.added, c.skipped, c.errors + 1⟩
        (ts ++ [invalidFileToast f.name (validateFile f).headI]) rest
    else if getTotalSize st.filesArr + f.size > MAX_TOTAL_SIZE then
      (st, c, ts ++ [sizeLimitToast])
    else if f.readOk = false then
      intakeLoop gen st ⟨c.added, c.skipped, c.errors + 1⟩
        (ts ++ [cannotProcessToast f.name]) rest
    else if (st.filesArr.find? (isDupOf f.hash f.name f.size)).isSome then
      intakeLoop gen st ⟨c.added, c.skipped + 1, c.errors⟩ ts rest
    else if hasPdfHeader f.bytes = false then
      intakeLoop gen st ⟨c.added, c.skipped, c.errors + 1⟩
        (ts ++ [notPdfToast f.name]) rest
    else if f.probeOk = false then
      intakeLoop gen st ⟨c.added, c.skipped, c.errors + 1⟩
        (ts ++ [cannotProcessToast f.name]) rest
    else
      intakeLoop gen
        ⟨st.filesArr ++ [mkRecord (gen st.uidCtr) f], st.uidCtr + 1⟩
        ⟨c.added + 1, c.skipped, c.errors⟩ ts rest

/-- The batch report after the loop (script.js lines 293-299): a success
toast when anything was added, an info toast when only duplicates were
seen, and nothing otherwise.  The error count never appears here. -/
def summaryToasts (c : IntakeCounts) : List Toast :=
  if c.added > 0 then [filesAddedToast c.added c.skipped]
  else if c.skipped > 0 then [noNewFilesToast c.skipped]
  else []

/-- handleFiles (script.js lines 162-300): early return on an empty batch,
the PDF filter with its zero-remaining rejection, the 50-file cap, then the
per-file loop followed by the batch report.  Returns the new state, the
batch counters and the toasts emitted, in order. -/
def handleFiles (gen : Nat → String) (st : AppState) (files : List JsFile) :
    AppState × IntakeCounts × List Toast :=
  if files = [] then (st, IntakeCounts.zero, [])
  else
    let pdfs := files.filter isPdfCandidate
    if pdfs = [] then (st, IntakeCounts.zero, [unsupportedToast])
    else if st.filesArr.length + pdfs.length > MAX_FILE_COUNT then
      (st, IntakeCounts.zero, [tooManyToast pdfs.length])
    else
      let r := intakeLoop gen st IntakeCounts.zero [] pdfs
      (r.1, r.2.1, r.2.2 ++ summaryToasts r.2.1)

/-- Total expected output pages (script.js line 306): reduce of pageCount
over filesArr.  pageCount is always set on a record, so the JS fallback
(f.pageCount || 0) is the field itself. -/
def totalPages (l : List FileRecord) : Nat :=
  l.foldl (fun s f => s + f.pageCount) 0

/-- Math.round((added / Math.max(1, totalPages)) * 100) as written on
script.js line 339, computed exactly on the rationals the source feeds it:
round half up of 100 * added / max 1 total. -/
def jsRound100 (added total : Nat) : Nat :=
  (200 * added + max 1 total) / (2 * max 1 total)

/-- The per-record contribution to the running success counter (script.js
line 338): item.pageCount || srcPages.length, where srcPages is the copied
page list; pageCount is 0 exactly when the JS value is falsy. -/
def contrib (r : FileRecord) : Nat :=
  if r.pageCount ≠ 0 then r.pageCount else r.pages.length

/-- Toast shown when copying one record fails mid-merge (script.js lines
343-348). -/
def skippedFileToast (fname : String) : Toast :=
  ⟨"Partial failure", "Skipped " ++ fname ++ " due to error"⟩

/-- Toast shown when the merge throws; with zero copied pages the thrown
text is the line-353 message, short enough to escape truncation
(script.js lines 386-393). -/
def mergeFailedToast : Toast :=
  ⟨"Merge failed", "No pages were successfully merged"⟩

/-- Success toast (script.js lines 376-381); the timestamp-derived filename
in the message is not modelled. -/
def mergeSuccessToast (added : Nat) : Toast :=
  ⟨"Success!", s!"Merged {added} pages"⟩

/-- Accumulator of the merge loop: output pages so far, the running added
counter, the successive progress-bar percentages written, and the toasts
emitted. -/
structure MergeAcc where
  outPages : List Nat
  added : Nat
  progress : List Nat
  toasts : List Toast
deriving DecidableEq, Repr

/-- One iteration of the merge loop (script.js lines 328-350).  ok tells
whether the load-and-copy of this record succeeds (it re-parses rawBytes;
failure lands in the per-item catch).  On success the pages are appended in
their original internal order, added grows by contrib, and the progress bar
is set; on failure only the partial-failure toast is emitted. -/
def mergeStep (ok : FileRecord → Bool) (total : Nat) (acc : MergeAcc) (r : FileRecord) :
    MergeAcc :=
  if ok r then
    { outPages := acc.outPages ++ r.pages,
      added := acc.added + contrib r,
      progress := acc.progress ++ [jsRound100 (acc.added + contrib r) total],
      toasts := acc.toasts }
  else
    { acc with toasts := acc.toasts ++ [skippedFileToast r.name] }

/-- The whole merge loop over filesArr in list order. -/
def mergeRun (ok : FileRecord → Bool) (l : List FileRecord) : MergeAcc :=
  l.foldl (mergeStep ok (totalPages l)) ⟨[], 0, [], []⟩

/-- Observable outcome of one merge invocation: the downloaded artifact
(its page list; none when nothing was serialized or downloaded), the toasts,
the progress percentages written during the loop, and the final added
counter. -/
structure MergeOutcome where
  artifact : Option (List Nat)
  toasts : List Toast
  progress : List Nat
  added : Nat
deriving DecidableEq, Repr

/-- The mergeBtn click handler (script.js lines 303-405): no-op on an empty
list; the large-output confirm gate (none when declined); then the loop;
zero added pages throws, caught as the merge-failed toast with no save and
no download; otherwise the document is serialized, downloaded and the
success toast shown.  confirmLarge is the user response to the confirm
prompt. -/
def mergeClick (ok : FileRecord → Bool) (confirmLarge : Bool) (l : List FileRecord) :
    Option MergeOutcome :=
  if l = [] then none
  else if totalPages l > LARGE_OUTPUT_THRESHOLD ∧ confirmLarge = false then none
  else
    let a := mergeRun ok l
    if a.added = 0 then
      some ⟨none, a.toasts ++ [mergeFailedToast], a.progress, a.added⟩
    else
      some ⟨some a.outPages, a.toasts ++ [mergeSuccessToast a.added], a.progress, a.added⟩

/-- JS splice(j, 0, x): insert x at position j, clamped to the length. -/
def spliceInsert (l : List α) (j : Nat) (x : α) : List α :=
  l.take j ++ x :: l.drop j

/-- The Sortable onEnd handler (script.js lines 74-81): splice the element
out of position i and splice it back in at position j.  Drag events always
deliver an in-range source index; the out-of-range case is the identity
here. -/
def moveItem (l : List α) (i j : Nat) : List α :=
  match l[i]? with
  | none => l
  | some x => spliceInsert (l.take i ++ l.drop (i + 1)) j x

/-- cleanupMemory (script.js lines 408-417): null every rawBytes buffer in
place; the gc() hint is outside the model. -/
def cleanupMemory (l : List FileRecord) : List FileRecord :=
  l.map (fun r => { r with rawBytes := none })

/-- The clearBtn click handler (script.js lines 419-438): no-op on an empty
list; otherwise previousFiles aliases the record objects, cleanupMemory
nulls their buffers in place, and filesArr becomes empty.  Returns the new
filesArr and the saved list captured by the undo closure (whose records,
being aliased, have lost their buffers). -/
def clearFiles (l : List FileRecord) : List FileRecord × List FileRecord :=
  if l = [] then (l, [])
  else ([], cleanupMemory l)

/-- The undo action of the clear toast (script.js lines 431-436): filesArr
becomes the saved list again. -/
def undoClear (saved : List FileRecord) : List FileRecord := saved

/-- The metadata of a record that the list UI and the merge order depend
on: identity, display fields and page count. -/
def recMeta (r : FileRecord) : String × String × Nat × Nat :=
  (r.id, r.name, r.size, r.pageCount)

/-- Uniqueness invariant for record ids relative to the uid stream gen:
the live ids are pairwise distinct and each was drawn at an already
consumed counter position. -/
def UidInv (gen : Nat → String) (st : AppState) : Prop :=
  (st.filesArr.map FileRecord.id).Nodup ∧
  ∀ s ∈ st.filesArr.map FileRecord.id, ∃ k, k < st.uidCtr ∧ s = gen k

/-- A single-page record used by concrete instances: page token p, content
hash h. -/
def oneRec (nm id h : String) (p : Nat) : FileRecord :=
  { name := nm, size := 6, pageCount := 1, id := id,
    rawBytes := some (pdfMagic ++ [p]), hash := some h, pages := [p] }

/-- A well-formed single-page candidate file with the given name, hash and
page token. -/
def oneFile (nm h : String) (p : Nat) : JsFile :=
  { name := nm, type := "application/pdf", size := 6, readOk := true,
    bytes := pdfMagic ++ [p], hash := some h, probeOk := true, pages := [p] }

/-- A record whose size is the whole 500 MB budget, used to exercise the
total-size cutoff on concrete inputs. -/
def bigRec : FileRecord :=
  { name := "big.pdf", size := 500 * 1024 * 1024, pageCount := 1, id := "ibig",
    rawBytes := none, hash := some "hbig", pages := [1] }

/-! Basic bookkeeping lemmas about the embedded definitions. -/

theorem size_foldl_eq (l : List FileRecord) (n : Nat) :
    List.foldl (fun sum f => sum + f.size) n l = n + (l.map FileRecord.size).sum := by
  induction l generalizing n with
  | nil => simp
  | cons a as ih => simp [List.foldl_cons, ih, Nat.add_assoc]

theorem getTotalSize_eq_sum (l : List FileRecord) :
    getTotalSize l = (l.map FileRecord.size).sum := by
  simpa [getTotalSize] using size_foldl_eq l 0

theorem getTotalSize_append (l m : List FileRecord) :
    getTotalSize (l ++ m) = getTotalSize l + getTotalSize m := by
  simp [getTotalSize_eq_sum]

theorem pages_foldl_eq (l : List FileRecord) (n : Nat) :
    List.foldl (fun s f => s + f.pageCount) n l = n + (l.map FileRecord.pageCount).sum := by
  induction l generalizing n with
  | nil => simp
  | cons a as ih => simp [List.foldl_cons, ih, Nat.add_assoc]

theorem totalPages_eq_sum (l : List FileRecord) :
    totalPages l = (l.map FileRecord.pageCount).sum := by
  simpa [totalPages] using pages_foldl_eq l 0

theorem take_cons_drop {α : Type} (l : List α) (i : Nat) (x : α) (h : l[i]? = some x) :
    l.take i ++ x :: l.drop (i + 1) = l := by
  induction l generalizing i with
  | nil => simp at h
  | cons a as ih =>
    cases i with
    | zero => simp_all
    | succ n =>
      simp only [List.take_succ_cons, List.drop_succ_cons, List.cons_append]
      rw [ih n (by simpa using h)]

theorem moveItem_perm {α : Type} (l : List α) (i j : Nat) : (moveItem l i j).Perm l := by
  unfold moveItem
  cases h : l[i]? with
  | none => exact List.Perm.refl l
  | some x =>
    have e := take_cons_drop l i x h
    have p1 : (spliceInsert (l.take i ++ l.drop (i + 1)) j x).Perm
        (x :: (l.take i ++ l.drop (i + 1))) := by
      unfold spliceInsert
      have p := @List.perm_middle α x
        ((l.take i ++ l.drop (i + 1)).take j) ((l.take i ++ l.drop (i + 1)).drop j)
      simpa [List.take_append_drop] using p
    have p2 : (x :: (l.take i ++ l.drop (i + 1))).Perm (l.take i ++ x :: l.drop (i + 1)) :=
      List.perm_middle.symm
    exact (p1.trans p2).trans (by rw [e])

theorem totalPages_moveItem (l : List FileRecord) (i j : Nat) :
    totalPages (moveItem l i j) = totalPages l := by
  rw [totalPages_eq_sum, totalPages_eq_sum]
  exact ((moveItem_perm l i j).map FileRecord.pageCount).sum_eq

theorem mem_moveItem {r : FileRecord} {l : List FileRecord} {i j : Nat}
    (h : r ∈ moveItem l i j) : r ∈ l := (moveItem_perm l i j).mem_iff.1 h

theorem contrib_eq_pageCount {r : FileRecord} (h : r.pageCount = r.pages.length) :
    contrib r = r.pageCount := by
  unfold contrib
  split <;> omega

theorem jsRound100_le_100 {a total : Nat} (h : a ≤ max 1 total) :
    jsRound100 a total ≤ 100 := by
  unfold jsRound100
  have h1 : 1 ≤ max 1 total := le_max_left 1 total
  have h2 : 200 * a + max 1 total < 101 * (2 * max 1 total) := by omega
  have h3 := (Nat.div_lt_iff_lt_mul (by omega : 0 < 2 * max 1 total)).2 h2
  omega

/-! Lemmas about the merge loop. -/

theorem mergeFold_all_ok (ok : FileRecord → Bool) (total : Nat) (l : List FileRecord) :
    ∀ acc : MergeAcc, (∀ r ∈ l, ok r = true) →
      (List.foldl (mergeStep ok total) acc l).outPages =
          acc.outPages ++ (l.map FileRecord.pages).flatten ∧
      (List.foldl (mergeStep ok total) acc l).added = acc.added + (l.map contrib).sum := by
  induction l with
  | nil => intro acc _; simp
  | cons r rest ih =>
    intro acc h
    have hr : ok r = true := h r (List.mem_cons_self r rest)
    have ih2 := ih (mergeStep ok total acc r) (fun x hx => h x (List.mem_cons_of_mem r hx))
    simp only [List.foldl_cons]
    refine ⟨?_, ?_⟩
    · rw [ih2.1]
      simp [mergeStep, hr, List.append_assoc]
    · rw [ih2.2]
      simp [mergeStep, hr, Nat.add_assoc]

theorem mergeFold_all_fail (ok : FileRecord → Bool) (total : Nat) (l : List FileRecord) :
    ∀ acc : MergeAcc, (∀ r ∈ l, ok r = false) →
      List.foldl (mergeStep ok total) acc l =
        { acc with toasts := acc.toasts ++ l.map (fun r => skippedFileToast r.name) } := by
  induction l with
  | nil => intro acc _; simp
  | cons r rest ih =>
    intro acc h
    have hr : ok r = false := h r (List.mem_cons_self r rest)
    simp only [List.foldl_cons]
    rw [ih _ (fun x hx => h x (List.mem_cons_of_mem r hx))]
    simp [mergeStep, hr]

theorem mergeFold_progress_le (ok : FileRecord → Bool) (total : Nat) (l : List FileRecord) :
    ∀ acc : MergeAcc, (∀ r ∈ l, contrib r = r.pageCount) →
      acc.added + (l.map FileRecord.pageCount).sum ≤ max 1 total →
      (∀ p ∈ acc.progress, p ≤ 100) →
      ∀ p ∈ (List.foldl (mergeStep ok total) acc l).progress, p ≤ 100 := by
  induction l with
  | nil => intro acc _ _ hacc; simpa using hacc
  | cons r rest ih =>
    intro acc hc hb hacc
    have hcr : contrib r = r.pageCount := hc r (List.mem_cons_self r rest)
    have hcrest : ∀ x ∈ rest, contrib x = x.pageCount :=
      fun x hx => hc x (List.mem_cons_of_mem r hx)
    simp only [List.map_cons, List.sum_cons] at hb
    simp only [List.foldl_cons]
    cases hok : ok r with
    | false =>
      refine ih _ hcrest ?_ ?_
      · simp only [mergeStep, hok, Bool.false_eq_true, if_false]
        omega
      · simpa [mergeStep, hok] using hacc
    | true =>
      refine ih _ hcrest ?_ ?_
      · simp only [mergeStep, hok, if_true]
        omega
      · simp only [mergeStep, hok, if_true]
        intro p hp
        rcases List.mem_append.1 hp with hp | hp
        · exact hacc p hp
        · have hpe : p = jsRound100 (acc.added + contrib r) total := by simpa using hp
          rw [hpe]
          exact jsRound100_le_100 (by omega)

theorem mergeClick_all_ok (l : List FileRecord)
    (hpc : ∀ r ∈ l, r.pageCount = r.pages.length) (hnz : totalPages l ≠ 0) :
    ∃ m, mergeClick (fun _ => true) true l = some m ∧
      m.artifact = some ((l.map FileRecord.pages).flatten) := by
  have hne : l ≠ [] := by
    intro h
    rw [h] at hnz
    simp [totalPages] at hnz
  have hfold := mergeFold_all_ok (fun _ => true) (totalPages l) l ⟨[], 0, [], []⟩
    (fun r _ => rfl)
  have hadded : (mergeRun (fun _ => true) l).added = totalPages l := by
    unfold mergeRun
    rw [hfold.2]
    rw [List.map_congr_left (fun r hr => contrib_eq_pageCount (hpc r hr))]
    simp [totalPages_eq_sum]
  have hout : (mergeRun (fun _ => true) l).outPages = (l.map FileRecord.pages).flatten := by
    unfold mergeRun
    rw [hfold.1]
    simp
  unfold mergeClick
  rw [if_neg hne, if_neg (by simp)]
  rw [if_neg (by rw [hadded]; exact hnz)]
  exact ⟨_, rfl, by rw [hout]⟩

theorem mergeClick_progress (ok : FileRecord → Bool) (confirmLarge : Bool)
    (l : List FileRecord) (m : MergeOutcome) (hm : mergeClick ok confirmLarge l = some m) :
    m.progress = (mergeRun ok l).progress := by
  unfold mergeClick at hm
  by_cases h1 : l = []
  · rw [if_pos h1] at hm
    cases hm
  rw [if_neg h1] at hm
  by_cases h2 : totalPages l > LARGE_OUTPUT_THRESHOLD ∧ confirmLarge = false
  · rw [if_pos h2] at hm
    cases hm
  rw [if_neg h2] at hm
  by_cases h3 : (mergeRun ok l).added = 0
  · rw [if_pos h3] at hm
    cases hm
    rfl
  · rw [if_neg h3] at hm
    cases hm
    rfl

/-! Lemmas about the intake loop. -/

theorem intakeLoop_count (gen : Nat → String) (batch : List JsFile) :
    ∀ (st : AppState) (c : IntakeCounts) (ts : List Toast),
      (intakeLoop gen st c ts batch).1.filesArr.length + c.added =
        st.filesArr.length + (intakeLoop gen st c ts batch).2.1.added := by
  induction batch with
  | nil => intro st c ts; simp [intakeLoop]
  | cons f rest ih =>
    intro st c ts
    simp only [intakeLoop]
    split_ifs with h1 h2 h3 h4 h5 h6
    · simpa using ih st _ _
    · simp
    · simpa using ih st _ _
    · simpa using ih st _ _
    · simpa using ih st _ _
    · simpa using ih st _ _
    · have h := ih ⟨st.filesArr ++ [mkRecord (gen st.uidCtr) f], st.uidCtr + 1⟩
        ⟨c.added + 1, c.skipped, c.errors⟩ ts
      simp only [List.length_append, List.length_singleton] at h
      omega

theorem intakeLoop_total_le (gen : Nat → String) (batch : List JsFile) :
    ∀ (st : AppState) (c : IntakeCounts) (ts : List Toast),
      getTotalSize st.filesArr ≤ MAX_TOTAL_SIZE →
      getTotalSize (intakeLoop gen st c ts batch).1.filesArr ≤ MAX_TOTAL_SIZE := by
  induction batch with
  | nil => intro st c ts h; simpa [intakeLoop] using h
  | cons f rest ih =>
    intro st c ts h
    simp only [intakeLoop]
    split_ifs with h1 h2 h3 h4 h5 h6
    · exact ih _ _ _ h
    · simpa using h
    · exact ih _ _ _ h
    · exact ih _ _ _ h
    · exact ih _ _ _ h
    · exact ih _ _ _ h
    · refine ih _ _ _ ?_
      have he : getTotalSize (st.filesArr ++ [mkRecord (gen st.uidCtr) f]) =
          getTotalSize st.filesArr + f.size := by
        rw [getTotalSize_append]
        simp [getTotalSize, mkRecord]
      simp only [he]
      omega

theorem intakeLoop_uidinv (gen : Nat → String) (hinj : Function.Injective gen)
    (batch : List JsFile) :
    ∀ (st : AppState) (c : IntakeCounts) (ts : List Toast),
      UidInv gen st → UidInv gen (intakeLoop gen st c ts batch).1 := by
  induction batch with
  | nil => intro st c ts h; simpa [intakeLoop] using h
  | cons f rest ih =>
    intro st c ts h
    simp only [intakeLoop]
    split_ifs with h1 h2 h3 h4 h5 h6
    · exact ih _ _ _ h
    · simpa using h
    · exact ih _ _ _ h
    · exact ih _ _ _ h
    · exact ih _ _ _ h
    · exact ih _ _ _ h
    · refine ih _ _ _ ?_
      obtain ⟨hnd, hcl⟩ := h
      constructor
      · rw [List.map_append]
        refine List.nodup_append.2 ⟨hnd, List.nodup_singleton _, ?_⟩
        intro a ha hb
        rcases hcl a ha with ⟨k, hk, rfl⟩
        have hab : gen k = gen st.uidCtr := by simpa [mkRecord] using hb
        have := hinj hab
        omega
      · intro s hs
        rw [List.map_append] at hs
        rcases List.mem_append.1 hs with hs | hs
        · rcases hcl s hs with ⟨k, hk, hk2⟩
          refine ⟨k, ?_, hk2⟩
          dsimp only
          omega
        · have hse : s = gen st.uidCtr := by simpa [mkRecord] using hs
          refine ⟨st.uidCtr, ?_, hse⟩
          dsimp only
          omega

/-! Claim theorems. -/

/-- C1: for every ordered list of records at merge time (each record with
its intake page count, and every per-record copy succeeding, with at least
one page overall so an output exists), the merge output is the page list of each
record in its original internal order, concatenated in list order; and
merging after a move(fromIndex, toIndex) reorder produces the pages in the
new list order. -/
theorem merge_concat_in_list_order (l : List FileRecord)
    (hpc : ∀ r ∈ l, r.pageCount = r.pages.length) (hnz : totalPages l ≠ 0) :
    (∃ m, mergeClick (fun _ => true) true l = some m ∧
        m.artifact = some ((l.map FileRecord.pages).flatten)) ∧
    ∀ i j, ∃ m, mergeClick (fun _ => true) true (moveItem l i j) = some m ∧
        m.artifact = some (((moveItem l i j).map FileRecord.pages).flatten) := by
  refine ⟨mergeClick_all_ok l hpc hnz, ?_⟩
  intro i j
  exact mergeClick_all_ok (moveItem l i j)
    (fun r hr => hpc r (mem_moveItem hr))
    (by rw [totalPages_moveItem]; exact hnz)

/-- Witness for C1: three valid single-page records A, B, C merged in order
give the three pages in order, and after moving the first record to the
end the output is in the new order. -/
theorem merge_concat_in_list_order_witness :
    (∃ m, mergeClick (fun _ => true) true
        [oneRec "a.pdf" "ia" "ha" 10, oneRec "b.pdf" "ib" "hb" 20, oneRec "c.pdf" "ic" "hc" 30] =
        some m ∧ m.artifact = some [10, 20, 30]) ∧
    (∃ m, mergeClick (fun _ => true) true
        (moveItem [oneRec "a.pdf" "ia" "ha" 10, oneRec "b.pdf" "ib" "hb" 20,
          oneRec "c.pdf" "ic" "hc" 30] 0 2) =
        some m ∧ m.artifact = some [20, 30, 10]) := by
  have h := merge_concat_in_list_order
    [oneRec "a.pdf" "ia" "ha" 10, oneRec "b.pdf" "ib" "hb" 20, oneRec "c.pdf" "ic" "hc" 30]
    (by decide) (by decide)
  obtain ⟨⟨m1, hm1, ha1⟩, h2⟩ := h
  obtain ⟨m2, hm2, ha2⟩ := h2 0 2
  exact ⟨⟨m1, hm1, ha1⟩, ⟨m2, hm2, ha2⟩⟩

/-- C2: on a non-empty list, if the per-file copy of every record fails (so zero
pages are copied), the merge fails with the explicit merge-failed toast, no
artifact is produced, and no success report is shown. -/
theorem merge_zero_pages_fails (ok : FileRecord → Bool) (l : List FileRecord)
    (hne : l ≠ []) (hfail : ∀ r ∈ l, ok r = false) :
    mergeClick ok true l =
      some ⟨none, l.map (fun r => skippedFileToast r.name) ++ [mergeFailedToast], [], 0⟩ ∧
    ∀ m, mergeClick ok true l = some m → ∀ t ∈ m.toasts, t.title ≠ "Success!" := by
  have hrun : mergeRun ok l = ⟨[], 0, [], l.map (fun r => skippedFileToast r.name)⟩ := by
    unfold mergeRun
    rw [mergeFold_all_fail ok (totalPages l) l ⟨[], 0, [], []⟩ hfail]
    rfl
  have hmain : mergeClick ok true l =
      some ⟨none, l.map (fun r => skippedFileToast r.name) ++ [mergeFailedToast], [], 0⟩ := by
    unfold mergeClick
    rw [if_neg hne, if_neg (by simp), hrun]
    simp
  refine ⟨hmain, ?_⟩
  intro m hm t ht
  rw [hmain] at hm
  cases hm
  rcases List.mem_append.1 ht with ht | ht
  · rcases List.mem_map.1 ht with ⟨r, _, rfl⟩
    show (skippedFileToast r.name).title ≠ "Success!"
    simp [skippedFileToast]
  · have : t = mergeFailedToast := by simpa using ht
    rw [this]
    decide

/-- Witness for C2: a single record whose copy fails yields the failed
merge with no artifact. -/
theorem merge_zero_pages_fails_witness :
    mergeClick (fun _ => false) true [oneRec "a.pdf" "ia" "ha" 10] =
      some ⟨none, [skippedFileToast "a.pdf", mergeFailedToast], [], 0⟩ ∧
    ∀ m, mergeClick (fun _ => false) true [oneRec "a.pdf" "ia" "ha" 10] = some m →
      ∀ t ∈ m.toasts, t.title ≠ "Success!" := by
  have h := merge_zero_pages_fails (fun _ => false) [oneRec "a.pdf" "ia" "ha" 10]
    (by decide) (fun r _ => rfl)
  exact ⟨h.1, h.2⟩

/-- C7: every progress percentage surfaced during a merge is between 0 and
100 inclusive, for every list of records carrying their intake page counts
and every pattern of per-record success or failure. -/
theorem merge_progress_in_range (ok : FileRecord → Bool) (confirmLarge : Bool)
    (l : List FileRecord) (hpc : ∀ r ∈ l, r.pageCount = r.pages.length)
    (m : MergeOutcome) (hm : mergeClick ok confirmLarge l = some m) :
    ∀ p ∈ m.progress, 0 ≤ p ∧ p ≤ 100 := by
  intro p hp
  refine ⟨Nat.zero_le p, ?_⟩
  rw [mergeClick_progress ok confirmLarge l m hm] at hp
  unfold mergeRun at hp
  refine mergeFold_progress_le ok (totalPages l) l ⟨[], 0, [], []⟩
    (fun r hr => contrib_eq_pageCount (hpc r hr)) ?_ (by simp) p hp
  simp [totalPages_eq_sum]

/-- Witness for C7: a two-record merge where one record fails surfaces the
percentages 50 and 100, both in range. -/
theorem merge_progress_in_range_witness :
    (0 ≤ 50 ∧ 50 ≤ 100) ∧ (0 ≤ 100 ∧ 100 ≤ 100) := by
  have h := merge_progress_in_range (fun _ => true) true
    [oneRec "a.pdf" "ia" "ha" 10, oneRec "b.pdf" "ib" "hb" 20]
    (by decide) ⟨some [10, 20], [mergeSuccessToast 2], [50, 100], 2⟩ (by decide)
  exact ⟨h 50 (by decide), h 100 (by decide)⟩

/-- C3: when a candidate that passed per-file validation would push the
cumulative accepted size past MAX_TOTAL_SIZE, the loop stops the whole
remaining batch (the result is the same whatever candidates follow, and
nothing more is added); consequently the total byte size of the list never
exceeds the ceiling after any intake operation that starts at or below it. -/
theorem intake_size_cutoff_and_ceiling (gen : Nat → String) (st : AppState)
    (c : IntakeCounts) (ts : List Toast) (f : JsFile) (rest files : List JsFile) :
    (validateFile f = [] → getTotalSize st.filesArr + f.size > MAX_TOTAL_SIZE →
      intakeLoop gen st c ts (f :: rest) = (st, c, ts ++ [sizeLimitToast])) ∧
    (getTotalSize st.filesArr ≤ MAX_TOTAL_SIZE →
      getTotalSize (handleFiles gen st files).1.filesArr ≤ MAX_TOTAL_SIZE) := by
  constructor
  · intro hv hsz
    simp only [intakeLoop]
    rw [if_neg (by simp [hv]), if_pos hsz]
  · intro h
    simp only [handleFiles]
    split_ifs with h1 h2 h3
    · simpa using h
    · simpa using h
    · simpa using h
    · exact intakeLoop_total_le gen _ st _ _ h

/-- Witness for C3: with a 500 MB record in the list, a valid 6-byte
candidate triggers the cutoff and the rest of the batch is dropped;
and a concrete intake keeps the total within the ceiling. -/
theorem intake_size_cutoff_and_ceiling_witness :
    intakeLoop (fun _ => "x") ⟨[bigRec], 0⟩ IntakeCounts.zero []
        [oneFile "a.pdf" "h1" 10, oneFile "b.pdf" "h2" 20] =
      (⟨[bigRec], 0⟩, IntakeCounts.zero, [sizeLimitToast]) ∧
    getTotalSize (handleFiles (fun _ => "x") ⟨[bigRec], 0⟩
        [oneFile "a.pdf" "h1" 10]).1.filesArr ≤ MAX_TOTAL_SIZE := by
  have h := intake_size_cutoff_and_ceiling (fun _ => "x") ⟨[bigRec], 0⟩ IntakeCounts.zero []
    (oneFile "a.pdf" "h1" 10) [oneFile "b.pdf" "h2" 20] [oneFile "a.pdf" "h1" 10]
  exact ⟨h.1 (by decide) (by decide), h.2 (by decide)⟩

/-- C4: a candidate that reaches the duplicate check (it passed validation,
did not trip the total-size cutoff, and its bytes were read) and matches an
existing record by hash or by name and size is skipped as a duplicate: the
list and the error count are unchanged and the skip count grows by one;
a unique candidate passing all checks appends exactly one record; and
across any batch the number of appended records equals the growth of the
added counter. -/
theorem intake_dup_skip_unique_add (gen : Nat → String) (st : AppState)
    (c : IntakeCounts) (ts : List Toast) (f : JsFile) (rest : List JsFile) :
    (validateFile f = [] →
      ¬ (getTotalSize st.filesArr + f.size > MAX_TOTAL_SIZE) →
      f.readOk = true →
      (((st.filesArr.find? (isDupOf f.hash f.name f.size)).isSome = true →
          intakeLoop gen st c ts (f :: rest) =
            intakeLoop gen st ⟨c.added, c.skipped + 1, c.errors⟩ ts rest) ∧
        ((st.filesArr.find? (isDupOf f.hash f.name f.size)).isSome = false →
          hasPdfHeader f.bytes = true → f.probeOk = true →
          intakeLoop gen st c ts (f :: rest) =
            intakeLoop gen ⟨st.filesArr ++ [mkRecord (gen st.uidCtr) f], st.uidCtr + 1⟩
              ⟨c.added + 1, c.skipped, c.errors⟩ ts rest))) ∧
    ∀ batch, (intakeLoop gen st c ts batch).1.filesArr.length + c.added =
      st.filesArr.length + (intakeLoop gen st c ts batch).2.1.added := by
  constructor
  · intro hv hsz hread
    constructor
    · intro hdup
      simp only [intakeLoop]
      rw [if_neg (by simp [hv]), if_neg hsz, if_neg (by simp [hread]), if_pos hdup]
    · intro hdup hhdr hprobe
      simp only [intakeLoop]
      rw [if_neg (by simp [hv]), if_neg hsz, if_neg (by simp [hread]),
        if_neg (by simp [hdup]), if_neg (by simp [hhdr]), if_neg (by simp [hprobe])]
  · exact fun batch => intakeLoop_count gen batch st c ts

/-- Witness for C4: a candidate sharing the hash of an existing record is
skipped, and the counter relation holds on that batch. -/
theorem intake_dup_skip_unique_add_witness :
    intakeLoop (fun _ => "u") ⟨[oneRec "a.pdf" "ia" "ha" 10], 1⟩ IntakeCounts.zero []
        [oneFile "c.pdf" "ha" 30] =
      intakeLoop (fun _ => "u") ⟨[oneRec "a.pdf" "ia" "ha" 10], 1⟩ ⟨0, 1, 0⟩ [] [] ∧
    (intakeLoop (fun _ => "u") ⟨[oneRec "a.pdf" "ia" "ha" 10], 1⟩ IntakeCounts.zero []
        [oneFile "c.pdf" "ha" 30]).1.filesArr.length + 0 =
      1 + (intakeLoop (fun _ => "u") ⟨[oneRec "a.pdf" "ia" "ha" 10], 1⟩ IntakeCounts.zero []
        [oneFile "c.pdf" "ha" 30]).2.1.added := by
  have h := intake_dup_skip_unique_add (fun _ => "u") ⟨[oneRec "a.pdf" "ia" "ha" 10], 1⟩
    IntakeCounts.zero [] (oneFile "c.pdf" "ha" 30) []
  exact ⟨((h.1 (by decide) (by decide) (by decide)).1 (by decide)),
    h.2 [oneFile "c.pdf" "ha" 30]⟩

/-- C5: the intake filter retains exactly the candidates whose lowercased
name ends in .pdf or whose declared type is application/pdf (the empty-type
leniency is nullified by the repeated exact-type conjunct), and a batch in
which no candidate survives the filter is rejected whole with the
unsupported-files toast and an unchanged list. -/
theorem pdf_filter_policy_and_empty_reject (f : JsFile) (gen : Nat → String)
    (st : AppState) (files : List JsFile) :
    isPdfCandidate f = (jsEndsWith (jsToLower f.name) ".pdf" || f.type == "application/pdf") ∧
    (files ≠ [] → files.filter isPdfCandidate = [] →
      handleFiles gen st files = (st, IntakeCounts.zero, [unsupportedToast])) := by
  constructor
  · unfold isPdfCandidate
    cases h : (f.type == "application/pdf") <;> simp [h]
  · intro hne hempty
    simp [handleFiles, hne, hempty]

/-- Witness for C5: a plain text file is not retained by the filter, and a
batch consisting only of it is rejected whole. -/
theorem pdf_filter_policy_and_empty_reject_witness :
    isPdfCandidate ⟨"x.txt", "text/plain", 3, true, [], none, true, []⟩ =
      (jsEndsWith (jsToLower "x.txt") ".pdf" || ("text/plain" == "application/pdf")) ∧
    handleFiles (fun _ => "x") ⟨[], 0⟩ [⟨"x.txt", "text/plain", 3, true, [], none, true, []⟩] =
      (⟨[], 0⟩, IntakeCounts.zero, [unsupportedToast]) := by
  have h := pdf_filter_policy_and_empty_reject ⟨"x.txt", "text/plain", 3, true, [], none, true, []⟩
    (fun _ => "x") ⟨[], 0⟩ [⟨"x.txt", "text/plain", 3, true, [], none, true, []⟩]
  exact ⟨h.1, h.2 (by decide) (by decide)⟩

/-- C6 counterexample: uid draws from Math.random with no collision check,
so under a draw sequence that repeats, two records accepted in one batch
carry the same id and the live list ids are not pairwise distinct. -/
theorem uid_collision_counterexample :
    ¬ ((handleFiles (fun _ => "dupid") ⟨[], 0⟩
        [oneFile "a.pdf" "h1" 10, oneFile "b.pdf" "h2" 20]).1.filesArr.map
        FileRecord.id).Nodup := by
  decide

/-- C6 amended: the code does not enforce id uniqueness; ids are unique
exactly when the uid draw sequence cooperates.  If the draws are pairwise
distinct (the generator is injective) then intake preserves the invariant
that live ids are pairwise distinct draws at consumed positions. -/
theorem uid_unique_of_injective_gen (gen : Nat → String) (hinj : Function.Injective gen)
    (st : AppState) (files : List JsFile) (h : UidInv gen st) :
    UidInv gen (handleFiles gen st files).1 := by
  simp only [handleFiles]
  split_ifs with h1 h2 h3
  · simpa using h
  · simpa using h
  · simpa using h
  · exact intakeLoop_uidinv gen hinj _ st _ _ h

/-- Witness for C6 amended: an injective draw sequence yields a unique id
on a concrete one-file intake from the empty state. -/
theorem uid_unique_of_injective_gen_witness :
    UidInv (fun k => String.mk (List.replicate k 'a'))
      ((handleFiles (fun k => String.mk (List.replicate k 'a')) ⟨[], 0⟩
        [oneFile "a.pdf" "h1" 10]).1) :=
  uid_unique_of_injective_gen _
    (by
      intro a b hab
      simpa using congrArg (fun s => s.data.length) hab)
    ⟨[], 0⟩ _ ⟨List.nodup_nil, by simp⟩

/-- C8 counterexample: a batch in which the only file errors (bad magic
number) produces only the per-file error toast: the error count is 1, yet
no aggregate report toast (Files added or No new files) is shown. -/
theorem all_errored_no_report_counterexample :
    handleFiles (fun _ => "x") ⟨[], 0⟩ [{ oneFile "a.pdf" "h1" 10 with bytes := [1, 2, 3] }] =
      (⟨[], 0⟩, ⟨0, 0, 1⟩, [notPdfToast "a.pdf"]) ∧
    ((handleFiles (fun _ => "x") ⟨[], 0⟩
        [{ oneFile "a.pdf" "h1" 10 with bytes := [1, 2, 3] }]).2.2.filter
      (fun t => t.title == "Files added" || t.title == "No new files")) = [] := by
  decide

/-- C8 amended: the aggregate report after a batch is the added count (with
the duplicate count when nonzero) when anything was added, the duplicate
count alone when nothing was added but duplicates were skipped, and absent
otherwise — in particular absent when every file errored; the error count
never appears in it. -/
theorem intake_report_cases (c : IntakeCounts) :
    (0 < c.added → summaryToasts c = [filesAddedToast c.added c.skipped]) ∧
    (c.added = 0 → 0 < c.skipped → summaryToasts c = [noNewFilesToast c.skipped]) ∧
    (c.added = 0 → c.skipped = 0 → summaryToasts c = []) := by
  refine ⟨fun h1 => ?_, fun h1 h2 => ?_, fun h1 h2 => ?_⟩
  · unfold summaryToasts
    rw [if_pos h1]
  · unfold summaryToasts
    rw [if_neg (by omega), if_pos h2]
  · unfold summaryToasts
    rw [if_neg (by omega), if_neg (by omega)]

/-- Witness for C8 amended: concrete counter triples produce the expected
report, and an all-errors outcome produces none. -/
theorem intake_report_cases_witness :
    summaryToasts ⟨2, 1, 0⟩ = [filesAddedToast 2 1] ∧ summaryToasts ⟨0, 0, 5⟩ = [] :=
  ⟨(intake_report_cases ⟨2, 1, 0⟩).1 (by decide),
    (intake_report_cases ⟨0, 0, 5⟩).2.2 rfl rfl⟩

/-- C9: clearing a non-empty list and invoking undo restores the exact
prior ordered list of records: same ids, names, sizes and page counts in
the same order (and the retained hash metadata), while the byte buffers,
released in place by the clear, are not re-fetched. -/
theorem clear_undo_restores (l : List FileRecord) (h : l ≠ []) :
    (clearFiles l).1 = [] ∧
    (undoClear (clearFiles l).2).map recMeta = l.map recMeta ∧
    (undoClear (clearFiles l).2).map FileRecord.hash = l.map FileRecord.hash ∧
    ∀ r ∈ undoClear (clearFiles l).2, r.rawBytes = none := by
  unfold clearFiles undoClear
  rw [if_neg h]
  refine ⟨rfl, ?_, ?_, ?_⟩
  · unfold cleanupMemory
    rw [List.map_map]
    rfl
  · unfold cleanupMemory
    rw [List.map_map]
    rfl
  · intro r hr
    rcases List.mem_map.1 hr with ⟨x, _, rfl⟩
    rfl

/-- Witness for C9: clear then undo on a concrete one-record list. -/
theorem clear_undo_restores_witness :
    (clearFiles [oneRec "a.pdf" "ia" "ha" 10]).1 = [] ∧
    (undoClear (clearFiles [oneRec "a.pdf" "ia" "ha" 10]).2).map recMeta =
      [oneRec "a.pdf" "ia" "ha" 10].map recMeta ∧
    (undoClear (clearFiles [oneRec "a.pdf" "ia" "ha" 10]).2).map FileRecord.hash =
      [oneRec "a.pdf" "ia" "ha" 10].map FileRecord.hash ∧
    ∀ r ∈ undoClear (clearFiles [oneRec "a.pdf" "ia" "ha" 10]).2, r.rawBytes = none :=
  clear_undo_restores [oneRec "a.pdf" "ia" "ha" 10] (by decide)

/-- C10: when either hash involved is absent the duplicate predicate
reduces to the name-and-size comparison — an absent candidate hash never
matches any stored hash and a stored absent hash never matches a present
candidate hash — and concretely two distinct files that both failed
hashing are both added when their names differ. -/
theorem absent_hash_name_size_fallback (h : Option String) (nm : String) (sz : Nat)
    (x : FileRecord) (hnone : x.hash = none ∨ h = none) :
    isDupOf h nm sz x = (x.name == nm && x.size == sz) ∧
    (handleFiles (fun _ => "u") ⟨[], 0⟩
      [{ oneFile "a.pdf" "h1" 10 with hash := none },
       { oneFile "b.pdf" "h2" 20 with hash := none }]).2.1.added = 2 := by
  constructor
  · rcases hnone with hx | hh
    · cases h with
      | none => rfl
      | some v =>
        unfold isDupOf
        rw [hx]
        rfl
    · rw [hh]
      rfl
  · decide

/-- Witness for C10: an absent candidate hash against a stored record with
a present hash matches only by name and size. -/
theorem absent_hash_name_size_fallback_witness :
    isDupOf none "x.pdf" 1 (oneRec "a.pdf" "ia" "ha" 10) =
      ((oneRec "a.pdf" "ia" "ha" 10).name == "x.pdf" &&
        (oneRec "a.pdf" "ia" "ha" 10).size == 1) ∧
    (handleFiles (fun _ => "u") ⟨[], 0⟩
      [{ oneFile "a.pdf" "h1" 10 with hash := none },
       { oneFile "b.pdf" "h2" 20 with hash := none }]).2.1.added = 2 :=
  absent_hash_name_size_fallback none "x.pdf" 1 (oneRec "a.pdf" "ia" "ha" 10) (Or.inr rfl)

end PaperFusion
